import Mathlib

/-!
Shallow embedding of the PressRelease content-admission pipeline
(`apps/engine/src/pipeline/*.ts` and the trust-rebuild module), together
with theorems settling the frozen claims about it.

Text is modelled as `List Nat` (Unicode code points).  JavaScript string
operations (`toLowerCase`, `trim`, `replace`, `includes`, regex tests)
are embedded as executable functions on code-point lists; the regexes in
the source are small, fixed patterns that are translated into explicit
matchers.  JavaScript numbers are modelled as exact rationals `ℚ`
(the pipeline uses only small sums, products and one two-decimal
rounding step, where exact arithmetic and IEEE doubles agree on all the
inputs considered here).
-/

namespace PressRelease

/-- Code points of a Lean string literal, used to write the many string
constants of the source readably. -/
def str (s : String) : List Nat := s.data.map Char.toNat

/-- ASCII lower-casing of one code point, the fragment of JavaScript
`toLowerCase` exercised by the source (all its string constants are
ASCII). -/
def jsLower (n : Nat) : Nat := if 65 ≤ n ∧ n ≤ 90 then n + 32 else n

/-- JavaScript regex `\w` (word character): `[A-Za-z0-9_]`. -/
def isWordCode (n : Nat) : Bool :=
  (97 ≤ n && n ≤ 122) || (65 ≤ n && n ≤ 90) || (48 ≤ n && n ≤ 57) || n == 95

/-- JavaScript regex `\s` (whitespace), restricted to the code points
that can actually occur here. -/
def isSpaceCode (n : Nat) : Bool :=
  n == 32 || n == 9 || n == 10 || n == 11 || n == 12 || n == 13 ||
  n == 160 || n == 8232 || n == 8233 || n == 65279

/-- `leadsWith needle hay`: `hay` starts with `needle`. -/
def leadsWith : List Nat → List Nat → Bool
  | [], _ => true
  | _ :: _, [] => false
  | a :: as, b :: bs => a == b && leadsWith as bs

/-- JavaScript `Math.max` on two numbers. -/
def jsMax (a b : ℚ) : ℚ := if a ≤ b then b else a

/-- JavaScript `Math.min` on two numbers. -/
def jsMin (a b : ℚ) : ℚ := if a ≤ b then a else b

/-- JavaScript `hay.includes(needle)`: substring containment. -/
def hasSub (hay needle : List Nat) : Bool :=
  match hay with
  | [] => needle.isEmpty
  | _ :: t => leadsWith needle hay || hasSub t needle

/-- JavaScript `String.trim()`: drop leading and trailing whitespace. -/
def jsTrim (l : List Nat) : List Nat :=
  ((l.dropWhile (isSpaceCode ·)).reverse.dropWhile (isSpaceCode ·)).reverse

/-- JavaScript `.replace(/\s+/g, ' ')`: each maximal run of whitespace
becomes a single space. -/
def collapseWs : List Nat → List Nat
  | [] => []
  | [c] => if isSpaceCode c then [32] else [c]
  | c :: d :: cs =>
      if isSpaceCode c then
        if isSpaceCode d then collapseWs (d :: cs)
        else 32 :: collapseWs (d :: cs)
      else c :: collapseWs (d :: cs)

/-- JavaScript `.replace(/[^\w\s]/g, ' ')`: non-word, non-space
characters become spaces. -/
def punctToSpace (l : List Nat) : List Nat :=
  l.map fun n => if !(isWordCode n) && !(isSpaceCode n) then 32 else n

/-- JavaScript `.replace(/[^\w\s]/g, '')`: non-word, non-space
characters are deleted. -/
def dropPunct (l : List Nat) : List Nat :=
  l.filter fun n => isWordCode n || isSpaceCode n

/-- Split a list on characters satisfying `p`, keeping the (possibly
empty) segments between separators; JavaScript `split(/\s+/)` composed
with the callers' length filters agrees with this. -/
def splitOnPred (p : Nat → Bool) : List Nat → List (List Nat)
  | [] => [[]]
  | c :: cs =>
      let r := splitOnPred p cs
      if p c then [] :: r
      else match r with
        | [] => [[c]]
        | seg :: rest => (c :: seg) :: rest

/-! ### A tiny matcher engine for the fixed regexes of the source

Each regex in `score.ts` is a small pattern built from literal
characters, the any-character dot, one character range, alternation and
the word boundary `\b`.  The `/i` flag is embedded by matching against
the lower-cased text. -/

/-- One regex token: a literal code point, the dot (any character except
line terminators), or a character range. -/
inductive RTok
  | lit (n : Nat)
  | dot
  | rng (lo hi : Nat)
deriving DecidableEq

/-- Does one token accept one code point? -/
def tokOk : RTok → Nat → Bool
  | .lit m, c => c == m
  | .dot, c => !(c == 10 || c == 13 || c == 8232 || c == 8233)
  | .rng lo hi, c => lo ≤ c && c ≤ hi

/-- Consume a token sequence from the front of the text, returning the
remaining text on success. -/
def consumeToks : List RTok → List Nat → Option (List Nat)
  | [], l => some l
  | _ :: _, [] => none
  | t :: ts, c :: cs => if tokOk t c then consumeToks ts cs else none

/-- Literal token sequence for a string. -/
def lits (s : String) : List RTok := (str s).map RTok.lit

/-- Anchored alternation `^(a|b|…)`: the text starts with one of the
alternatives. -/
def startMatch (alts : List (List Nat)) (l : List Nat) : Bool :=
  alts.any fun a => leadsWith a l

/-- Unanchored alternation: the text contains one of the alternatives. -/
def subMatch (alts : List (List Nat)) (l : List Nat) : Bool :=
  alts.any fun a => hasSub l a

/-- Unanchored token search (for patterns containing the dot). -/
def tokSearch (ts : List RTok) : List Nat → Bool
  | [] => (consumeToks ts []).isSome
  | c :: t => (consumeToks ts (c :: t)).isSome || tokSearch ts t

/-- A match of `ts` at the current position respecting a leading `\b`
(the previous character, if any, is not a word character) and, when
`endB` is set, a trailing `\b`.  All patterns used with this start and
end in word characters, for which `\b` means exactly this. -/
def wbHit (ts : List RTok) (endB : Bool) (prevWord : Bool) (l : List Nat) : Bool :=
  !prevWord &&
    match consumeToks ts l with
    | some rest =>
        if endB then
          match rest with
          | [] => true
          | c :: _ => !(isWordCode c)
        else true
    | none => false

/-- Scan the text for a `\b`-delimited match, tracking whether the
previous character was a word character. -/
def wbSearchAux (ts : List RTok) (endB : Bool) (prevWord : Bool) : List Nat → Bool
  | [] => wbHit ts endB prevWord []
  | c :: t => wbHit ts endB prevWord (c :: t) || wbSearchAux ts endB (isWordCode c) t

/-- Search for `\b…\b` (both boundaries). -/
def wbSearch (ts : List RTok) (l : List Nat) : Bool :=
  wbSearchAux ts true false l

/-- Search for `\b…` (leading boundary only). -/
def wbSearchStart (ts : List RTok) (l : List Nat) : Bool :=
  wbSearchAux ts false false l

/-! ### `classify.ts` — YMYL detection and topic guardrails -/

/-- `type QueryStatus` from `types.ts`. -/
inductive QueryStatus
  | pending
  | approved
  | rejected
  | published
  | review_required
deriving DecidableEq, Repr

/-- `type YmylCategory` from `types.ts`. -/
inductive YmylCategory
  | health
  | finance
  | legal
  | safety
  | none
deriving DecidableEq, Repr

/-- `HEALTH_KEYWORDS` from `classify.ts`. -/
def HEALTH_KEYWORDS : List (List Nat) :=
  [str ("symptoms"), str ("treatment"), str ("diagnosis"), str ("medication"),
   str ("disease"), str ("illness"), str ("cancer"), str ("diabetes"),
   str ("heart"), str ("blood pressure"), str ("cholesterol"), str ("depression"),
   str ("anxiety"), str ("prescription"), str ("doctor"), str ("hospital"),
   str ("surgery"), str ("vaccine"), str ("dosage"), str ("side effects"),
   str ("overdose"), str ("pregnancy"), str ("fertility"), str ("mental health"),
   str ("diet"), str ("weight loss"), str ("exercise"), str ("nutrition"),
   str ("supplement"), str ("cure")]

/-- `FINANCE_KEYWORDS` from `classify.ts`. -/
def FINANCE_KEYWORDS : List (List Nat) :=
  [str ("invest"), str ("stock"), str ("crypto"), str ("bitcoin"),
   str ("retirement"), str ("401k"), str ("ira"), str ("mortgage"),
   str ("loan"), str ("credit score"), str ("debt"), str ("bankruptcy"),
   str ("tax"), str ("insurance"), str ("social security"), str ("pension"),
   str ("dividend"), str ("trading"), str ("forex"),
   str ("real estate investment"), str ("savings"), str ("interest rate")]

/-- `LEGAL_KEYWORDS` from `classify.ts`. -/
def LEGAL_KEYWORDS : List (List Nat) :=
  [str ("lawsuit"), str ("sue"), str ("attorney"), str ("lawyer"),
   str ("court"), str ("legal advice"), str ("custody"), str ("divorce"),
   str ("will"), str ("estate"), str ("contract"), str ("liability"),
   str ("discrimination"), str ("harassment"), str ("criminal"),
   str ("arrest"), str ("bail"), str ("immigration"), str ("visa"),
   str ("deportation"), str ("asylum"), str ("copyright"), str ("patent")]

/-- `SAFETY_KEYWORDS` from `classify.ts`. -/
def SAFETY_KEYWORDS : List (List Nat) :=
  [str ("emergency"), str ("poison"), str ("overdose"), str ("suicide"),
   str ("self-harm"), str ("abuse"), str ("violence"), str ("assault"),
   str ("weapon"), str ("dangerous"), str ("hazard"), str ("toxic"),
   str ("explosion"), str ("fire safety"), str ("evacuation"), str ("first aid")]

/-- `BLOCKED_TOPICS` from `classify.ts`. -/
def BLOCKED_TOPICS : List (List Nat) :=
  [str ("suicide methods"), str ("how to make weapons"), str ("illegal drugs"),
   str ("child exploitation"), str ("terrorism"), str ("hate speech")]

/-- The safety fields of `config.ts` consumed by the classifier
(`SAFE_TOPICS_ONLY`, `YMYL_THRESHOLD`). -/
structure SafetyConfig where
  safeTopicsOnly : Bool
  ymylThreshold : ℚ
deriving DecidableEq

/-- `interface ClassificationResult` from `classify.ts`. -/
structure ClassificationResult where
  isYmyl : Bool
  ymylCategory : YmylCategory
  ymylRiskScore : ℚ
  isBlocked : Bool
  status : QueryStatus
  reviewNotes : Option (List Nat)
deriving DecidableEq, Repr

/-- `countMatches` from `classify.ts`: the number of lexicon keywords
occurring in the query as substrings. -/
def countMatches (q : List Nat) (keyword_list : List (List Nat)) : Nat :=
  (keyword_list.filter fun kw => hasSub q kw).length

/-- `classifyQuery` from `classify.ts`.  The `for … return` loop over
`BLOCKED_TOPICS` is the first match of the list, then lexicon counting,
category choice, risk score and the status decision as written. -/
def classifyQuery (cfg : SafetyConfig) (q : List Nat) : ClassificationResult :=
  let lowerQuery := q.map jsLower
  match BLOCKED_TOPICS.find? (fun b => hasSub lowerQuery b) with
  | some b =>
      { isYmyl := true
        ymylCategory := .safety
        ymylRiskScore := 1
        isBlocked := true
        status := .rejected
        reviewNotes := some (str ("Blocked topic: ") ++ b) }
  | Option.none =>
      let healthScore := countMatches lowerQuery HEALTH_KEYWORDS
      let financeScore := countMatches lowerQuery FINANCE_KEYWORDS
      let legalScore := countMatches lowerQuery LEGAL_KEYWORDS
      let safetyScore := countMatches lowerQuery SAFETY_KEYWORDS
      let maxScore := max (max healthScore financeScore) (max legalScore safetyScore)
      let isYmyl := decide (0 < maxScore)
      let ymylCategory : YmylCategory :=
        if maxScore = healthScore ∧ 0 < healthScore then .health
        else if maxScore = financeScore ∧ 0 < financeScore then .finance
        else if maxScore = legalScore ∧ 0 < legalScore then .legal
        else if maxScore = safetyScore ∧ 0 < safetyScore then .safety
        else .none
      let ymylRiskScore : ℚ := jsMin 1 ((maxScore : ℚ) * (3/10))
      let statusNotes : QueryStatus × Option (List Nat) :=
        if cfg.safeTopicsOnly && isYmyl then
          (.rejected, some (str ("YMYL topic blocked by SAFE_TOPICS_ONLY mode")))
        else if isYmyl && decide (cfg.ymylThreshold ≤ ymylRiskScore) then
          (.review_required, some (str ("High YMYL risk")))
        else (.pending, Option.none)
      { isYmyl := isYmyl
        ymylCategory := ymylCategory
        ymylRiskScore := ymylRiskScore
        isBlocked := false
        status := statusNotes.1
        reviewNotes := statusNotes.2 }

/-- `isSafeToProcess` from `classify.ts`. -/
def isSafeToProcess (cfg : SafetyConfig) (q : List Nat) : Bool :=
  let result := classifyQuery cfg q
  !result.isBlocked && !(decide (result.status = .rejected))

/-! ### `score.ts` — query scoring -/

/-- `normalizeQuery` from `score.ts`: lower-case, trim, punctuation to
spaces, collapse whitespace, trim. -/
def normalizeQuery (query : List Nat) : List Nat :=
  jsTrim (collapseWs (punctToSpace (jsTrim (query.map jsLower))))

/-- The `question` group of `INTENT_PATTERNS`: seven anchored
alternations such as `/^how (to|do|does|can|long|much|many)/i`. -/
def questionPatterns : List (List Nat → Bool) :=
  [startMatch [str ("how to"), str ("how do"), str ("how does"), str ("how can"),
               str ("how long"), str ("how much"), str ("how many")],
   startMatch [str ("what is"), str ("what are"), str ("what does"),
               str ("what do"), str ("what happens")],
   startMatch [str ("why do"), str ("why does"), str ("why is"), str ("why are")],
   startMatch [str ("when do"), str ("when does"), str ("when can"),
               str ("when should"), str ("when will")],
   startMatch [str ("where can"), str ("where do"), str ("where does"),
               str ("where is"), str ("where are")],
   startMatch [str ("can you"), str ("can i"), str ("can we"), str ("can one")],
   startMatch [str ("is it"), str ("is there"), str ("is this")]]

/-- The `eligibility` group of `INTENT_PATTERNS`. -/
def eligibilityPatterns : List (List Nat → Bool) :=
  [subMatch [str ("eligible"), str ("eligibility")],
   subMatch [str ("qualify"), str ("qualificat")],
   subMatch [str ("requirement")],
   subMatch [str ("criteria")]]

/-- The `process` group of `INTENT_PATTERNS`; `/step.by.step/i` uses the
regex dot. -/
def processPatterns : List (List Nat → Bool) :=
  [subMatch [str ("how to apply")],
   tokSearch (lits ("step") ++ [RTok.dot] ++ lits ("by") ++ [RTok.dot] ++ lits ("step")),
   subMatch [str ("process for"), str ("process to"), str ("process of")],
   subMatch [str ("deadline")],
   subMatch [str ("timeline")]]

/-- The `comparison` group of `INTENT_PATTERNS`; in `/vs\.?|versus/i`
the optional dot makes any occurrence of `vs` a match. -/
def comparisonPatterns : List (List Nat → Bool) :=
  [subMatch [str ("vs"), str ("versus")],
   subMatch [str ("difference between")],
   subMatch [str ("compared to")],
   subMatch [str ("better than"), str ("better or")]]

/-- The `definition` group of `INTENT_PATTERNS` (all `\b…\b`). -/
def definitionPatterns : List (List Nat → Bool) :=
  [wbSearch (lits ("what is")),
   wbSearch (lits ("what are")),
   wbSearch (lits ("definition of")),
   wbSearch (lits ("meaning of"))]

/-- `INTENT_PATTERNS` from `score.ts`: the five groups with their fixed
scores. -/
def INTENT_PATTERNS : List (List (List Nat → Bool) × ℚ) :=
  [(questionPatterns, 9/10),
   (eligibilityPatterns, 95/100),
   (processPatterns, 85/100),
   (comparisonPatterns, 8/10),
   (definitionPatterns, 75/100)]

/-- `TEMPORAL_PATTERNS` from `score.ts`; `\b20[2-9][0-9]\b` is the year
pattern, and the announced/released/launched pattern has only a leading
boundary. -/
def TEMPORAL_PATTERNS : List (List Nat → Bool) :=
  [fun l => [str ("today"), str ("yesterday"), str ("tomorrow")].any
      fun w => wbSearch (w.map RTok.lit) l,
   fun l => [str ("this week"), str ("last week"), str ("next week")].any
      fun w => wbSearch (w.map RTok.lit) l,
   wbSearch (lits ("20") ++ [RTok.rng 50 57, RTok.rng 48 57]),
   fun l => [str ("breaking"), str ("latest"), str ("news"), str ("update")].any
      fun w => wbSearch (w.map RTok.lit) l,
   fun l => [str ("announced today"), str ("announced yesterday"),
             str ("released today"), str ("released yesterday"),
             str ("launched today"), str ("launched yesterday")].any
      fun w => wbSearchStart (w.map RTok.lit) l]

/-- `EVERGREEN_PATTERNS` from `score.ts`: the `rules`, `howTo` and
`general` groups with their scores (optional plurals expanded). -/
def EVERGREEN_PATTERNS : List (List (List Nat → Bool) × ℚ) :=
  [([fun l => [str ("rule"), str ("rules")].any fun w => wbSearch (w.map RTok.lit) l,
     fun l => [str ("regulation"), str ("regulations")].any fun w => wbSearch (w.map RTok.lit) l,
     wbSearch (lits ("policy"))], 9/10),
   ([wbSearch (lits ("how to")),
     fun l => [str ("step to"), str ("steps to")].any fun w => wbSearch (w.map RTok.lit) l,
     wbSearch (lits ("guide"))], 85/100),
   ([wbSearch (lits ("what is")),
     wbSearch (lits ("what are")),
     wbSearch (lits ("explained"))], 8/10)]

/-- `calculateIntentScore` from `score.ts`: maximum matched group score
over a base of `0.5` (the inner `break` only skips redundant tests of
the same group). -/
def calculateIntentScore (query : List Nat) : ℚ :=
  let lq := query.map jsLower
  INTENT_PATTERNS.foldl
    (fun maxScore category =>
      if category.1.any (fun p => p lq) then jsMax maxScore category.2 else maxScore)
    (1/2)

/-- `calculateEvergreenScore` from `score.ts`: `0.2` penalty per matched
temporal pattern, bonus is the max matched evergreen group score over a
base of `0.5`, clamped to `[0, 1]`. -/
def calculateEvergreenScore (query : List Nat) : ℚ :=
  let lq := query.map jsLower
  let temporalPenalty : ℚ :=
    TEMPORAL_PATTERNS.foldl (fun pen p => if p lq then pen + 2/10 else pen) 0
  let evergreenBonus : ℚ :=
    EVERGREEN_PATTERNS.foldl
      (fun bonus category =>
        if category.1.any (fun p => p lq) then jsMax bonus category.2 else bonus)
      (1/2)
  jsMax 0 (jsMin 1 (evergreenBonus - temporalPenalty))

/-- JavaScript `Math.round`: floor of `x + 1/2` (ties toward `+∞`). -/
def jsRound (x : ℚ) : ℤ := ⌊x + 1/2⌋

/-- `calculateCombinedScore` from `score.ts`:
`Math.round((0.4·intent + 0.4·evergreen + 0.2·(1 − risk)) · 100) / 100`. -/
def calculateCombinedScore (intentScore evergreenScore ymylRiskScore : ℚ) : ℚ :=
  let score := intentScore * (4/10) + evergreenScore * (4/10) +
    (1 - ymylRiskScore) * (2/10)
  (jsRound (score * 100) : ℚ) / 100

/-- `interface ScoredQuery` from `types.ts` (the database `id` and the
optional `topicCategory` are not produced by `scoreQuery` and are
omitted). -/
structure ScoredQuery where
  query : List Nat
  normalizedQuery : List Nat
  keywordId : Option Nat
  intentScore : ℚ
  evergreenScore : ℚ
  ymylRiskScore : ℚ
  combinedScore : ℚ
  isYmyl : Bool
  ymylCategory : YmylCategory
  status : QueryStatus
  reviewNotes : Option (List Nat)
deriving DecidableEq, Repr

/-- `scoreQuery` from `score.ts`. -/
def scoreQuery (cfg : SafetyConfig) (query : List Nat) (keywordId : Option Nat) :
    ScoredQuery :=
  let normalizedQuery := normalizeQuery query
  let intentScore := calculateIntentScore query
  let evergreenScore := calculateEvergreenScore query
  let classification := classifyQuery cfg query
  let combinedScore :=
    calculateCombinedScore intentScore evergreenScore classification.ymylRiskScore
  { query := query
    normalizedQuery := normalizedQuery
    keywordId := keywordId
    intentScore := intentScore
    evergreenScore := evergreenScore
    ymylRiskScore := classification.ymylRiskScore
    combinedScore := combinedScore
    isYmyl := classification.isYmyl
    ymylCategory := classification.ymylCategory
    status := classification.status
    reviewNotes := classification.reviewNotes }

/-! ### `qualityGate.ts` — article quality gate -/

/-- `BANNED_PHRASES` from `providers/ai/prompts.ts`. -/
def BANNED_PHRASES : List (List Nat) :=
  [str ("as an expert"), str ("as a doctor"), str ("as a lawyer"),
   str ("as a financial advisor"), str ("I am a professional"),
   str ("guaranteed to"), str ("will definitely"), str ("always works"),
   str ("never fails"), str ("trust me"), str ("take my word"),
   str ("I promise"), str ("you must"), str ("you have to"),
   str ("this is the only way")]

/-- The quality fields of `config.ts` (`MIN_HEADINGS`, `MIN_WORD_COUNT`). -/
structure QualityConfig where
  minHeadings : Nat
  minWordCount : Nat
deriving DecidableEq

/-- The fields of `GeneratedArticle` read by the quality gate. -/
structure GeneratedArticle where
  title : List Nat
  content : List Nat
  wordCount : Nat
deriving DecidableEq

/-- The issue strings pushed by `runQualityGate`, abstracted to tags
with the interpolated numbers/phrases as payloads. -/
inductive QualityIssue
  | missingH1
  | insufficientH2 (count minimum : Nat)
  | missingFaq
  | missingSources
  | missingDisclaimer
  | insufficientWordCount (count minimum : Nat)
  | bannedPhrase (phrase : List Nat)
deriving DecidableEq

/-- The `details` field of `QualityGateResult`. -/
structure QualityDetails where
  hasH1 : Bool
  h2Count : Nat
  hasFaq : Bool
  hasSources : Bool
  hasDisclaimer : Bool
  wordCount : Nat
  bannedPhrasesFound : List (List Nat)
deriving DecidableEq

/-- `QualityGateResult` from `types.ts`. -/
structure QualityGateResult where
  passed : Bool
  score : ℚ
  issues : List QualityIssue
  details : QualityDetails
deriving DecidableEq

/-- Test for the regex `openTag[^>]*>` anywhere in the text: some
position starts with `openTag` and a `>` (code 62) follows, the `[^>]*`
absorbing everything up to that first `>`. -/
def hasTagMatch (openTag : List Nat) : List Nat → Bool
  | [] => false
  | c :: t =>
      (leadsWith openTag (c :: t) && ((c :: t).drop openTag.length).any (· == 62)) ||
      hasTagMatch openTag t

/-- Text after the first `>` (code 62), if any. -/
def afterGt : List Nat → Option (List Nat)
  | [] => Option.none
  | c :: t => if c == 62 then some t else afterGt t

/-- Fuelled scan counting non-overlapping matches of the regex
`openTag[^>]*>`: at a match the scan resumes after the closing `>`,
otherwise it advances one character.  Every step strictly shortens the
text, so fuel `l.length` (supplied by `countTag`) never runs out. -/
def countTagAux (openTag : List Nat) : Nat → List Nat → Nat
  | 0, _ => 0
  | _ + 1, [] => 0
  | fuel + 1, c :: t =>
      if leadsWith openTag (c :: t) then
        match afterGt ((c :: t).drop openTag.length) with
        | some rest => 1 + countTagAux openTag fuel rest
        | Option.none => countTagAux openTag fuel t
      else countTagAux openTag fuel t

/-- Count of matches of the regex `openTag[^>]*>` with the global flag,
as in `article.content.match(/<h2[^>]*>/gi)`. -/
def countTag (openTag : List Nat) (l : List Nat) : Nat :=
  countTagAux openTag l.length l

/-- The six structural issues of `runQualityGate`, pushed in source
order (H1, H2 count, FAQ, sources, disclaimer, word count). -/
def qgStructIssues (cfg : QualityConfig) (article : GeneratedArticle) : List QualityIssue :=
  let content := article.content.map jsLower
  let hasH1 := hasTagMatch (str ("<h1")) article.content
  let h2Count := countTag (str ("<h2")) content
  let hasFaq := hasSub content (str ("faq")) ||
    hasSub content (str ("frequently asked questions"))
  let hasSources := hasSub content (str ("sources")) || hasSub content (str ("references"))
  let hasDisclaimer := hasSub content (str ("disclaimer"))
  (if hasH1 then [] else [.missingH1]) ++
  (if h2Count < cfg.minHeadings then [.insufficientH2 h2Count cfg.minHeadings] else []) ++
  (if hasFaq then [] else [.missingFaq]) ++
  (if hasSources then [] else [.missingSources]) ++
  (if hasDisclaimer then [] else [.missingDisclaimer]) ++
  (if article.wordCount < cfg.minWordCount
   then [.insufficientWordCount article.wordCount cfg.minWordCount] else [])

/-- The `bannedPhrasesFound` accumulator of `runQualityGate`: phrases of
`BANNED_PHRASES` contained (lower-cased) in the lower-cased content, in
list order. -/
def qgBannedFound (article : GeneratedArticle) : List (List Nat) :=
  BANNED_PHRASES.filter fun phrase =>
    hasSub (article.content.map jsLower) (phrase.map jsLower)

/-- `runQualityGate` from `qualityGate.ts`.  The issue list is the six
structural pushes followed by one issue per banned phrase found;
`score = max(0, (7 − issues + bannedFound) / 7)`; `passed` iff no
issues.  The `/<h1[^>]*>/` test has no `i` flag and runs on the raw
content; the `/<h2[^>]*>/gi` count and the substring checks run on the
lower-cased content. -/
def runQualityGate (cfg : QualityConfig) (article : GeneratedArticle) : QualityGateResult :=
  let content := article.content.map jsLower
  let bannedPhrasesFound := qgBannedFound article
  let issues := qgStructIssues cfg article ++ bannedPhrasesFound.map .bannedPhrase
  let totalChecks : ℚ := 7
  let passedChecks : ℚ :=
    totalChecks - (issues.length : ℚ) + (bannedPhrasesFound.length : ℚ)
  let score := jsMax 0 (passedChecks / totalChecks)
  { passed := issues.length == 0
    score := score
    issues := issues
    details :=
      { hasH1 := hasTagMatch (str ("<h1")) article.content
        h2Count := countTag (str ("<h2")) content
        hasFaq := hasSub content (str ("faq")) ||
          hasSub content (str ("frequently asked questions"))
        hasSources := hasSub content (str ("sources")) ||
          hasSub content (str ("references"))
        hasDisclaimer := hasSub content (str ("disclaimer"))
        wordCount := article.wordCount
        bannedPhrasesFound := bannedPhrasesFound } }

/-! ### Trust Rebuild module (`trustRebuild.ts`) -/

/-- The fields of `TRUST_CONFIG` read by the embedded checks.  The
display-only `titleStructures` and `allowedCategories` arrays are never
read by any function modelled here and are omitted. -/
structure TrustConfig where
  enabled : Bool
  dailyPublishLimit : Nat
  minHoursBetweenPublishes : Nat
  maxTitleSimilarity : ℚ
  maxOutlineSimilarity : ℚ
  maxContentSimilarity : ℚ
  maxSameClusterPercent : ℚ
  maxGovernmentPercent : ℚ
  minCategoriesPerDay : Nat
  bannedTitlePhrases : List (List Nat)
  governmentKeywords : List (List Nat)

/-- `TRUST_CONFIG` from `trustRebuild.ts`; `enabled` comes from the
environment (`TRUST_REBUILD_MODE !== 'false'`) and is a parameter. -/
def TRUST_CONFIG (enabled : Bool) : TrustConfig where
  enabled := enabled
  dailyPublishLimit := 5
  minHoursBetweenPublishes := 4
  maxTitleSimilarity := 70/100
  maxOutlineSimilarity := 50/100
  maxContentSimilarity := 80/100
  maxSameClusterPercent := 20/100
  maxGovernmentPercent := 30/100
  minCategoriesPerDay := 3
  bannedTitlePhrases :=
    [str ("ultimate guide"), str ("complete guide"), str ("comprehensive guide"),
     str ("everything you need to know"), str ("step-by-step guide"),
     str ("definitive guide"), str ("a-z guide"), str ("all you need to know")]
  governmentKeywords :=
    [str ("passport"), str ("visa"), str ("license"), str ("dmv"),
     str ("social security"), str ("medicare"), str ("medicaid"),
     str ("unemployment"), str ("tax"), str ("irs"), str ("immigration"),
     str ("citizenship"), str ("birth certificate"), str ("id card"),
     str ("voter registration"), str ("welfare"), str ("snap"), str ("benefits")]

/-- Join string parts with `':'` (code 58). -/
def joinColon (parts : List (List Nat)) : List Nat := List.intercalate [58] parts

/-- `getCanonicalTopicKey` from `trustRebuild.ts`: normalize (here
punctuation is deleted, not spaced), then first matching country, first
matching process noun, first matching action verb; join the present
parts with `':'`, falling back to the first three words. -/
def getCanonicalTopicKey (text : List Nat) : List Nat :=
  let normalized := jsTrim (collapseWs (dropPunct (text.map jsLower)))
  let countries :=
    [str ("india"), str ("usa"), str ("uk"), str ("canada"), str ("australia"),
     str ("dubai"), str ("uae"), str ("germany"), str ("france"), str ("japan"),
     str ("china"), str ("mexico"), str ("brazil"), str ("philippines")]
  let location := (countries.find? fun c => hasSub normalized c).getD []
  let processNouns :=
    [str ("passport"), str ("visa"), str ("license"), str ("renewal"),
     str ("application"), str ("benefits"), str ("registration"),
     str ("certificate"), str ("permit"), str ("card")]
  let coreNoun := (processNouns.find? fun n => hasSub normalized n).getD []
  let actions :=
    [str ("renew"), str ("apply"), str ("get"), str ("obtain"),
     str ("replace"), str ("update"), str ("check")]
  let action := (actions.find? fun a => hasSub normalized a).getD []
  let parts := [coreNoun, action, location].filter fun p => 0 < p.length
  if 0 < parts.length then joinColon parts
  else joinColon ((splitOnPred (· == 32) normalized).take 3)

/-- `calculateTitleSimilarity` from `trustRebuild.ts`: Jaccard over the
sets of words of length > 2 (lower-cased, punctuation deleted). -/
def calculateTitleSimilarity (title1 title2 : List Nat) : ℚ :=
  let normalize := fun (t : List Nat) =>
    ((splitOnPred (isSpaceCode ·) (dropPunct (t.map jsLower))).filter
      fun w => 2 < w.length).dedup
  let words1 := normalize title1
  let words2 := normalize title2
  if words1.length = 0 ∨ words2.length = 0 then 0
  else
    let intersection := (words1.filter fun w => w ∈ words2).length
    let union := words1.length + words2.length - intersection
    (intersection : ℚ) / (union : ℚ)

/-- Result of `validateTitle`; `reason` holds the banned phrase found. -/
structure ValidateTitleResult where
  valid : Bool
  reason : Option (List Nat)
deriving DecidableEq

/-- `validateTitle` from `trustRebuild.ts`: invalid on the first banned
phrase contained in the lower-cased title. -/
def validateTitle (cfg : TrustConfig) (title : List Nat) : ValidateTitleResult :=
  let lowerTitle := title.map jsLower
  match cfg.bannedTitlePhrases.find? (fun phrase => hasSub lowerTitle phrase) with
  | some phrase => { valid := false, reason := some phrase }
  | Option.none => { valid := true, reason := Option.none }

/-- A row of the trailing-24h published-posts query feeding the
diversity statistics (`q.query as keyword, p.category`). -/
structure PublishedRow where
  keyword : List Nat
  category : List Nat
deriving DecidableEq

/-- Association-list model of the JavaScript `Map` used for
`byCluster`. -/
def mapGet (m : List (List Nat × Nat)) (k : List Nat) : Nat :=
  ((m.find? fun e => e.1 == k).map (·.2)).getD 0

/-- Update for the association-list `Map` model. -/
def mapSet : List (List Nat × Nat) → List Nat → Nat → List (List Nat × Nat)
  | [], k, v => [(k, v)]
  | e :: rest, k, v => if e.1 == k then (k, v) :: rest else e :: mapSet rest k v

/-- `interface DiversityStats` from `trustRebuild.ts` (`Map` and `Set`
modelled as lists). -/
structure DiversityStats where
  totalToday : Nat
  byCluster : List (List Nat × Nat)
  governmentCount : Nat
  categories : List (List Nat)
deriving DecidableEq

/-- The body of the row loop of `getTodayDiversityStats`: count the
row's canonical cluster, count it as government if a government keyword
occurs in it, collect its (non-empty) category. -/
def diversityStep (cfg : TrustConfig) (stats : DiversityStats)
    (row : PublishedRow) : DiversityStats :=
  let key := getCanonicalTopicKey row.keyword
  let byCluster := mapSet stats.byCluster key (mapGet stats.byCluster key + 1)
  let isGov := cfg.governmentKeywords.any fun kw =>
    hasSub (row.keyword.map jsLower) kw
  let governmentCount :=
    if isGov then stats.governmentCount + 1 else stats.governmentCount
  let categories :=
    if row.category.isEmpty then stats.categories
    else if row.category ∈ stats.categories then stats.categories
    else stats.categories ++ [row.category]
  { totalToday := stats.totalToday
    byCluster := byCluster
    governmentCount := governmentCount
    categories := categories }

/-- `getTodayDiversityStats` from `trustRebuild.ts`, as a pure function
of the trailing-24h query rows: `totalToday` is the row count, then the
row loop accumulates clusters, government count and categories. -/
def getTodayDiversityStats (cfg : TrustConfig) (rows : List PublishedRow) :
    DiversityStats :=
  rows.foldl (diversityStep cfg)
    { totalToday := rows.length, byCluster := [], governmentCount := 0,
      categories := [] }

/-- Reasons returned by `checkDiversityQuota` (the interpolated strings
are abstracted to tags). -/
inductive DivReason
  | clusterQuota (topicKey : List Nat)
  | governmentQuota
deriving DecidableEq

/-- Result of `checkDiversityQuota`. -/
structure DivCheckResult where
  allowed : Bool
  reason : Option DivReason
deriving DecidableEq

/-- `checkDiversityQuota` from `trustRebuild.ts`: disabled mode always
allows; the cluster-share and government-share ceilings apply only when
the 24h window holds more than 5 items (ramp-up floor). -/
def checkDiversityQuota (cfg : TrustConfig) (rows : List PublishedRow)
    (keyword _category : List Nat) : DivCheckResult :=
  if !cfg.enabled then { allowed := true, reason := Option.none }
  else
    let stats := getTodayDiversityStats cfg rows
    let topicKey := getCanonicalTopicKey keyword
    let clusterCount := mapGet stats.byCluster topicKey
    if 5 < stats.totalToday ∧
        cfg.maxSameClusterPercent ≤ (clusterCount : ℚ) / (stats.totalToday : ℚ) then
      { allowed := false, reason := some (.clusterQuota topicKey) }
    else
      let isGov := cfg.governmentKeywords.any fun kw =>
        hasSub (keyword.map jsLower) kw
      if isGov ∧ 5 < stats.totalToday ∧
          cfg.maxGovernmentPercent ≤
            (stats.governmentCount : ℚ) / (stats.totalToday : ℚ) then
        { allowed := false, reason := some .governmentQuota }
      else { allowed := true, reason := Option.none }

/-- Result of `checkPublishingCooldown`. -/
structure CooldownResult where
  allowed : Bool
  waitMinutes : Option Nat
deriving DecidableEq

/-- `checkPublishingCooldown` from `trustRebuild.ts`.  The source body
is a stub: under the comment `TEMPORARY OVERRIDE FOR ACCELERATION —
Ensure we can publish immediately` it returns `{ allowed: true }`
unconditionally, consulting neither the publish history nor
`minHoursBetweenPublishes`. -/
def checkPublishingCooldown : CooldownResult :=
  { allowed := true, waitMinutes := Option.none }

/-- A row of the all-published-posts query used by `checkTopicExists`
(`q.query as keyword, p.title`). -/
structure PublishedPost where
  keyword : List Nat
  title : List Nat
deriving DecidableEq

/-- The row loop of `checkTopicExists`: first row with the same
canonical key, or with title similarity strictly above the ceiling. -/
def checkTopicExistsLoop (cfg : TrustConfig) (topicKey keyword : List Nat) :
    List PublishedPost → Option (List Nat)
  | [] => Option.none
  | row :: rest =>
      if getCanonicalTopicKey row.keyword = topicKey then some row.title
      else if cfg.maxTitleSimilarity < calculateTitleSimilarity keyword row.keyword then
        some row.title
      else checkTopicExistsLoop cfg topicKey keyword rest

/-- Result of `checkTopicExists` (`exists` is a Lean keyword; the field
is named `exists_`). -/
structure TopicExistsResult where
  exists_ : Bool
  similarTitle : Option (List Nat)
deriving DecidableEq

/-- `checkTopicExists` from `trustRebuild.ts`, as a pure function of the
published-posts query rows. -/
def checkTopicExists (cfg : TrustConfig) (rows : List PublishedPost)
    (keyword : List Nat) : TopicExistsResult :=
  match checkTopicExistsLoop cfg (getCanonicalTopicKey keyword) keyword rows with
  | some title => { exists_ := true, similarTitle := some title }
  | Option.none => { exists_ := false, similarTitle := Option.none }

/-- The database state read by `runTrustChecks`: the all-published rows
(topic-existence check) and the trailing-24h rows (diversity check). -/
structure TrustEnv where
  publishedPosts : List PublishedPost
  todayRows : List PublishedRow

/-- The reason strings pushed by `runTrustChecks`, abstracted to tags
carrying the data interpolated by the source. -/
inductive TrustReason
  | duplicateTopic (similarTitle : Option (List Nat))
  | bannedTitle (phrase : Option (List Nat))
  | diversity (reason : Option DivReason)
  | cooldown (waitMinutes : Option Nat)
deriving DecidableEq

/-- `interface TrustCheckResult` from `trustRebuild.ts`. -/
structure TrustCheckResult where
  allowed : Bool
  reasons : List TrustReason

/-- `runTrustChecks` from `trustRebuild.ts`: disabled mode always
allows; otherwise the four checks accumulate reasons in source order and
admission requires an empty reason list. -/
def runTrustChecks (cfg : TrustConfig) (env : TrustEnv)
    (keyword category : List Nat) : TrustCheckResult :=
  if !cfg.enabled then { allowed := true, reasons := [] }
  else
    let topicCheck := checkTopicExists cfg env.publishedPosts keyword
    let r1 : List TrustReason :=
      if topicCheck.exists_ then [.duplicateTopic topicCheck.similarTitle] else []
    let titleCheck := validateTitle cfg keyword
    let r2 : List TrustReason :=
      if !titleCheck.valid then [.bannedTitle titleCheck.reason] else []
    let diversityCheck := checkDiversityQuota cfg env.todayRows keyword category
    let r3 : List TrustReason :=
      if !diversityCheck.allowed then [.diversity diversityCheck.reason] else []
    let cooldownCheck := checkPublishingCooldown
    let r4 : List TrustReason :=
      if !cooldownCheck.allowed then [.cooldown cooldownCheck.waitMinutes] else []
    let reasons := r1 ++ r2 ++ r3 ++ r4
    { allowed := reasons.length == 0, reasons := reasons }

/-! ### `refresh.ts` — refresh selection query -/

/-- Post status from `types.ts` / the `posts` table. -/
inductive PostStatus
  | draft
  | published
  | archived
deriving DecidableEq, Repr

/-- The columns of a `posts` row read by `findPostsToRefresh`;
timestamps are epoch seconds (`ℤ`), `NULL` is `Option.none`. -/
structure PostRow where
  status : PostStatus
  firstPublishedAt : ℤ
  nextRefreshAt : Option ℤ
  lastRefreshedAt : Option ℤ
deriving DecidableEq

/-- The `WHERE` clause of `findPostsToRefresh`, parsed with SQL operator
precedence (`AND` binds tighter than `OR`), exactly as the unparenthesized
source text reads:

`(status = 'published' AND (next_refresh_at IS NULL OR next_refresh_at <= NOW())
  AND last_refreshed_at IS NULL)
 OR last_refreshed_at < NOW() - INTERVAL 'intervalDays days'`. -/
def refreshWherePred (now : ℤ) (intervalDays : ℤ) (p : PostRow) : Bool :=
  (decide (p.status = .published) &&
    (p.nextRefreshAt.isNone ||
      (match p.nextRefreshAt with
       | some t => decide (t ≤ now)
       | Option.none => false)) &&
    p.lastRefreshedAt.isNone) ||
  (match p.lastRefreshedAt with
   | some t => decide (t < now - intervalDays * 86400)
   | Option.none => false)

/-- `findPostsToRefresh` from `refresh.ts`: the rows satisfying the
`WHERE` clause, ordered by `first_published_at ASC`, limited. -/
def findPostsToRefresh (now intervalDays : ℤ) (posts : List PostRow)
    (limit : Nat) : List PostRow :=
  ((posts.filter (refreshWherePred now intervalDays)).insertionSort
    (fun a b => a.firstPublishedAt ≤ b.firstPublishedAt)).take limit

/-- The boolean grouping the spec declares as intended: status published
AND (never refreshed OR next-refresh passed OR last refresh older than
the interval). -/
def refreshIntendedPred (now : ℤ) (intervalDays : ℤ) (p : PostRow) : Bool :=
  decide (p.status = .published) &&
    (p.lastRefreshedAt.isNone ||
      (match p.nextRefreshAt with
       | some t => decide (t ≤ now)
       | Option.none => false) ||
      (match p.lastRefreshedAt with
       | some t => decide (t < now - intervalDays * 86400)
       | Option.none => false))

/-! ### `orchestrator.ts` — discovery and generation phase models -/

/-- The three counter columns of a `jobs` row; `items_processed`,
`items_succeeded`, `items_failed` default to 0 (`infra/db/init.sql`). -/
structure JobCounters where
  itemsProcessed : Nat
  itemsSucceeded : Nat
  itemsFailed : Nat
deriving DecidableEq, Repr

/-- Result of the discovery phase model: the inserted `queries` rows and
the terminal `jobs` counter update. -/
structure DiscoveryOutcome where
  inserted : List ScoredQuery
  job : JobCounters

/-- The inner suggestion loop of `runDiscovery`: score, drop `rejected`,
drop normalized duplicates (the database lookup sees earlier inserts of
the same run), insert.  State: (normalized queries present in the
database, rows inserted so far). -/
def discoverStep (cfg : SafetyConfig) (keywordId : Nat)
    (st : List (List Nat) × List ScoredQuery) (suggestion : List Nat) :
    List (List Nat) × List ScoredQuery :=
  let scored := scoreQuery cfg suggestion (some keywordId)
  if scored.status = .rejected then st
  else if scored.normalizedQuery ∈ st.1 then st
  else (st.1 ++ [scored.normalizedQuery], st.2 ++ [scored])

/-- See `discoverStep`: fold of the suggestion loop. -/
def discoverKeyword (cfg : SafetyConfig) (keywordId : Nat)
    (suggestions : List (List Nat))
    (state : List (List Nat) × List ScoredQuery) :
    List (List Nat) × List ScoredQuery :=
  suggestions.foldl (discoverStep cfg keywordId) state

/-- `runDiscovery` from `orchestrator.ts` as a pure function of the
active keywords (each with the suggestion list its provider returned)
and the normalized queries already in the database.  The terminal
`updateJob` sets `itemsProcessed` to the number of keyword rows and
`itemsSucceeded` to the number of inserted queries; `itemsFailed` is not
passed and keeps its column default 0. -/
def runDiscoveryModel (cfg : SafetyConfig)
    (keywords : List (Nat × List (List Nat))) (db0 : List (List Nat)) :
    DiscoveryOutcome :=
  let final := keywords.foldl
    (fun st kw => discoverKeyword cfg kw.1 kw.2 st) (db0, [])
  { inserted := final.2
    job :=
      { itemsProcessed := keywords.length
        itemsSucceeded := final.2.length
        itemsFailed := 0 } }

/-- The per-item environment of the generation loop: the outcomes of the
external calls and checks made while processing one query. -/
structure GenItemEnv where
  /-- `checkPublishLimit()` re-checked at the top of the loop body. -/
  limitReached : Bool
  /-- some provider or database call inside the `try` throws
  (caught by the per-item `catch`, which counts a failure). -/
  throws : Bool
  /-- `runTrustChecks(...).allowed` (consulted only in trust mode). -/
  trustAllowed : Bool
  /-- `validateOutline(outline)`. -/
  outlineValid : Bool
  /-- `runQualityGate(article).passed`. -/
  qualityPassed : Bool
deriving DecidableEq

/-- The `for` loop of `runGeneration`: `break` on the re-checked daily
limit; otherwise exactly one of `failed` (trust rejection, invalid
outline, failed quality gate, or a caught exception) or `succeeded`
(published) is incremented per item. -/
def genLoop (trustEnabled : Bool) : List GenItemEnv → Nat × Nat
  | [] => (0, 0)
  | e :: rest =>
      if e.limitReached then (0, 0)
      else
        let r := genLoop trustEnabled rest
        if e.throws then (r.1, r.2 + 1)
        else if trustEnabled && !e.trustAllowed then (r.1, r.2 + 1)
        else if !e.outlineValid then (r.1, r.2 + 1)
        else if !e.qualityPassed then (r.1, r.2 + 1)
        else (r.1 + 1, r.2)

/-- The terminal `updateJob` of `runGeneration`: `itemsProcessed` is the
number of fetched queries, `itemsSucceeded`/`itemsFailed` are the loop
counters. -/
def runGenerationJobModel (trustEnabled : Bool) (items : List GenItemEnv) :
    JobCounters :=
  let counters := genLoop trustEnabled items
  { itemsProcessed := items.length
    itemsSucceeded := counters.1
    itemsFailed := counters.2 }

/-! ## Theorems settling the claims -/

/-- C8: `getCanonicalTopicKey "renew passport india"` equals
`getCanonicalTopicKey "passport renewal india"` (both are
`passport:renew:india`), and both differ from
`getCanonicalTopicKey "apply visa japan"` (`visa:apply:japan`). -/
theorem c8_canonical_topic_key_collisions :
    getCanonicalTopicKey (str ("renew passport india")) =
      getCanonicalTopicKey (str ("passport renewal india")) ∧
    getCanonicalTopicKey (str ("renew passport india")) ≠
      getCanonicalTopicKey (str ("apply visa japan")) := by
  constructor <;> decide

/-- A concrete draft post: never published, last refreshed at epoch 0. -/
def c3DraftPost : PostRow :=
  { status := .draft
    firstPublishedAt := 0
    nextRefreshAt := Option.none
    lastRefreshedAt := some 0 }

/-- A concrete published post whose scheduled next refresh has passed
but whose last refresh is recent. -/
def c3DuePost : PostRow :=
  { status := .published
    firstPublishedAt := 0
    nextRefreshAt := some 0
    lastRefreshedAt := some 9999999 }

/-- C3: the unparenthesized `AND`/`OR` chain of `findPostsToRefresh`
makes the query return posts that are not `published`: the draft post
(old `last_refreshed_at`) is selected even though its status is draft,
while the intended grouping stated by the spec excludes it; conversely a
published post whose scheduled next refresh has passed is due under the
intended grouping but is not selected by the query. -/
theorem c3_refresh_selects_non_published :
    c3DraftPost ∈ findPostsToRefresh 10000000 30 [c3DraftPost] 5 ∧
    c3DraftPost.status ≠ .published ∧
    refreshIntendedPred 10000000 30 c3DraftPost = false ∧
    refreshIntendedPred 10000000 30 c3DuePost = true ∧
    findPostsToRefresh 10000000 30 [c3DuePost] 5 = [] := by
  refine ⟨by decide, by decide, by decide, by decide, by decide⟩

/-- C1: the publishing cooldown never blocks anything.  The source body
of `checkPublishingCooldown` is a stub returning `{ allowed: true }`
unconditionally (`minHoursBetweenPublishes` is never consulted), so
`runTrustChecks` never records a cooldown reason, for any configuration
and any database state. -/
theorem c1_cooldown_never_blocks :
    checkPublishingCooldown.allowed = true ∧
    ∀ (cfg : TrustConfig) (env : TrustEnv) (keyword category : List Nat)
      (w : Option Nat),
      TrustReason.cooldown w ∉ (runTrustChecks cfg env keyword category).reasons := by
  refine ⟨rfl, ?_⟩
  intro cfg env keyword category w
  unfold runTrustChecks
  split
  · simp
  · simp only [checkPublishingCooldown]
    split_ifs <;> simp_all

/-- C1 witness: at a concrete configuration and empty database state,
the cooldown check allows and contributes no reason. -/
theorem c1_cooldown_never_blocks_witness :
    checkPublishingCooldown.allowed = true ∧
    TrustReason.cooldown Option.none ∉
      (runTrustChecks (TRUST_CONFIG true) ⟨[], []⟩
        (str ("renew passport india")) (str ("Travel"))).reasons :=
  ⟨c1_cooldown_never_blocks.1,
    c1_cooldown_never_blocks.2 (TRUST_CONFIG true) ⟨[], []⟩
      (str ("renew passport india")) (str ("Travel")) Option.none⟩

/-- C2 (amended): for the generation phase the terminal job update
satisfies `itemsSucceeded + itemsFailed ≤ itemsProcessed`: each loop
iteration either breaks or increments exactly one of the counters. -/
theorem c2_generation_counters_bounded (trustEnabled : Bool)
    (items : List GenItemEnv) :
    (runGenerationJobModel trustEnabled items).itemsSucceeded +
      (runGenerationJobModel trustEnabled items).itemsFailed ≤
    (runGenerationJobModel trustEnabled items).itemsProcessed := by
  suffices h : ∀ l : List GenItemEnv,
      (genLoop trustEnabled l).1 + (genLoop trustEnabled l).2 ≤ l.length by
    simpa [runGenerationJobModel] using h items
  intro l
  induction l with
  | nil => simp [genLoop]
  | cons e rest ih =>
      simp only [genLoop, List.length_cons]
      split_ifs <;> simp <;> omega

/-- The safety configuration used by the concrete runs below:
`SAFE_TOPICS_ONLY` off, `YMYL_THRESHOLD` at its default `0.7`. -/
def defaultSafetyConfig : SafetyConfig := ⟨false, 7/10⟩

/-- C2 counterexample: a discovery run over one keyword whose provider
returns two acceptable suggestions writes a terminal job row with
`itemsProcessed = 1` (keywords) but `itemsSucceeded = 2` (inserted
queries) and `itemsFailed = 0`, violating
`itemsSucceeded + itemsFailed ≤ itemsProcessed`. -/
theorem c2_discovery_counters_violate :
    ¬((runDiscoveryModel defaultSafetyConfig
        [(1, [str ("how to renew passport"), str ("passport renewal fees")])]
        []).job.itemsSucceeded +
      (runDiscoveryModel defaultSafetyConfig
        [(1, [str ("how to renew passport"), str ("passport renewal fees")])]
        []).job.itemsFailed ≤
      (runDiscoveryModel defaultSafetyConfig
        [(1, [str ("how to renew passport"), str ("passport renewal fees")])]
        []).job.itemsProcessed) := by
  decide

/-- C5: a query whose lower-cased form contains a blocked-topic phrase
is always classified `rejected`, `isBlocked`, risk `1.0`, category
`safety`; the result is independent of the safety configuration (the
lexicons, policy flag and threshold of the later stages are never
consulted), and `isSafeToProcess` is false. -/
theorem c5_blocked_phrase_always_rejected (q : List Nat)
    (h : ∃ b ∈ BLOCKED_TOPICS, hasSub (q.map jsLower) b = true) :
    ∀ cfg cfg' : SafetyConfig,
      (classifyQuery cfg q).status = .rejected ∧
      (classifyQuery cfg q).isBlocked = true ∧
      (classifyQuery cfg q).ymylRiskScore = 1 ∧
      (classifyQuery cfg q).ymylCategory = .safety ∧
      classifyQuery cfg q = classifyQuery cfg' q ∧
      isSafeToProcess cfg q = false := by
  intro cfg cfg'
  obtain ⟨b', hb'⟩ := Option.isSome_iff_exists.mp
    (List.find?_isSome.mpr (by simpa using h))
  refine ⟨?_, ?_, ?_, ?_, ?_, ?_⟩ <;>
    simp [classifyQuery, isSafeToProcess, hb']

/-- C5 witness: the query `how to buy illegal drugs` contains the
blocked phrase `illegal drugs` and is rejected under both safety
configurations. -/
theorem c5_blocked_phrase_always_rejected_witness :
    (classifyQuery defaultSafetyConfig (str ("how to buy illegal drugs"))).status =
      .rejected ∧
    (classifyQuery defaultSafetyConfig
      (str ("how to buy illegal drugs"))).isBlocked = true ∧
    (classifyQuery defaultSafetyConfig
      (str ("how to buy illegal drugs"))).ymylRiskScore = 1 ∧
    (classifyQuery defaultSafetyConfig
      (str ("how to buy illegal drugs"))).ymylCategory = .safety ∧
    classifyQuery defaultSafetyConfig (str ("how to buy illegal drugs")) =
      classifyQuery ⟨true, 1/2⟩ (str ("how to buy illegal drugs")) ∧
    isSafeToProcess defaultSafetyConfig (str ("how to buy illegal drugs")) = false :=
  c5_blocked_phrase_always_rejected (str ("how to buy illegal drugs"))
    (by decide) defaultSafetyConfig ⟨true, 1/2⟩

/-! Helper lemmas on diversity statistics. -/

theorem mapGet_mapSet_self (m : List (List Nat × Nat)) (k : List Nat) (v : Nat) :
    mapGet (mapSet m k v) k = v := by
  induction m with
  | nil => simp [mapGet, mapSet]
  | cons e rest ih =>
      by_cases h : (e.1 == k) = true
      · simp [mapGet, mapSet, h]
      · simpa [mapGet, mapSet, h] using ih

theorem mapGet_mapSet_ne (m : List (List Nat × Nat)) (k k' : List Nat) (v : Nat)
    (h : k' ≠ k) : mapGet (mapSet m k' v) k = mapGet m k := by
  have hne : (k' == k) = false := by simpa using h
  induction m with
  | nil => simp [mapGet, mapSet, List.find?, hne]
  | cons e rest ih =>
      by_cases he : (e.1 == k') = true
      · have : ¬(k' == k) = true := by simpa using h
        simp [mapGet, mapSet, he, this, List.find?]
        have he' : e.1 = k' := by simpa using he
        simp [he', this]
      · by_cases hek : (e.1 == k) = true
        · simp [mapGet, mapSet, he, hek, List.find?]
        · simpa [mapGet, mapSet, he, hek, List.find?] using ih

theorem foldl_diversityStep_totalToday (cfg : TrustConfig) :
    ∀ (l : List PublishedRow) (init : DiversityStats),
      (l.foldl (diversityStep cfg) init).totalToday = init.totalToday := by
  intro l
  induction l with
  | nil => intro init; rfl
  | cons r rest ih =>
      intro init
      simpa [List.foldl_cons] using ih (diversityStep cfg init r)

/-- `totalToday` of the diversity statistics is the row count. -/
theorem getTodayDiversityStats_totalToday (cfg : TrustConfig)
    (rows : List PublishedRow) :
    (getTodayDiversityStats cfg rows).totalToday = rows.length := by
  unfold getTodayDiversityStats
  rw [foldl_diversityStep_totalToday]

theorem foldl_diversityStep_byCluster (cfg : TrustConfig) (k : List Nat) :
    ∀ (l : List PublishedRow) (init : DiversityStats),
      mapGet (l.foldl (diversityStep cfg) init).byCluster k =
        mapGet init.byCluster k +
          l.countP (fun r => getCanonicalTopicKey r.keyword == k) := by
  intro l
  induction l with
  | nil => intro init; simp
  | cons r rest ih =>
      intro init
      rw [List.foldl_cons, ih (diversityStep cfg init r)]
      by_cases hk : getCanonicalTopicKey r.keyword = k
      · have h1 : mapGet (diversityStep cfg init r).byCluster k =
            mapGet init.byCluster k + 1 := by
          simp only [diversityStep]
          rw [hk, mapGet_mapSet_self]
        rw [h1, List.countP_cons]
        simp [hk]
        omega
      · have h1 : mapGet (diversityStep cfg init r).byCluster k =
            mapGet init.byCluster k := by
          simp only [diversityStep]
          exact mapGet_mapSet_ne _ _ _ _ hk
        rw [h1, List.countP_cons]
        simp [hk]

/-- The cluster count seen by `checkDiversityQuota` counts the window
rows sharing the canonical key. -/
theorem getTodayDiversityStats_byCluster (cfg : TrustConfig)
    (rows : List PublishedRow) (k : List Nat) :
    mapGet (getTodayDiversityStats cfg rows).byCluster k =
      rows.countP (fun r => getCanonicalTopicKey r.keyword == k) := by
  unfold getTodayDiversityStats
  rw [foldl_diversityStep_byCluster]
  simp [mapGet]

/-- C7: with trust mode on, a trailing-24h window of 10 items all in the
candidate's canonical cluster makes `checkDiversityQuota` reject the
candidate (share 100% ≥ the 20% ceiling), while any window of at most 5
items admits it (both quota checks require more than 5 items). -/
theorem c7_diversity_quota_ramp (kw cat : List Nat)
    (rows10 rows5 : List PublishedRow)
    (h10 : rows10.length = 10)
    (hsame : ∀ r ∈ rows10,
      getCanonicalTopicKey r.keyword = getCanonicalTopicKey kw)
    (h5 : rows5.length ≤ 5) :
    (checkDiversityQuota (TRUST_CONFIG true) rows10 kw cat).allowed = false ∧
    (checkDiversityQuota (TRUST_CONFIG true) rows5 kw cat).allowed = true := by
  have henabled : ((TRUST_CONFIG true).enabled : Bool) = true := rfl
  constructor
  · unfold checkDiversityQuota
    rw [henabled]
    have htot := getTodayDiversityStats_totalToday (TRUST_CONFIG true) rows10
    have hclu := getTodayDiversityStats_byCluster (TRUST_CONFIG true) rows10
      (getCanonicalTopicKey kw)
    have hcount : rows10.countP
        (fun r => getCanonicalTopicKey r.keyword == getCanonicalTopicKey kw) =
        rows10.length := by
      apply List.countP_eq_length.mpr
      intro r hr
      simpa using hsame r hr
    rw [hcount, h10] at hclu
    rw [h10] at htot
    have hcond : 5 < (getTodayDiversityStats (TRUST_CONFIG true) rows10).totalToday ∧
        (TRUST_CONFIG true).maxSameClusterPercent ≤
          ((mapGet (getTodayDiversityStats (TRUST_CONFIG true) rows10).byCluster
              (getCanonicalTopicKey kw) : ℚ)) /
            (((getTodayDiversityStats (TRUST_CONFIG true) rows10).totalToday : ℚ)) := by
      refine ⟨by omega, ?_⟩
      rw [hclu, htot]
      norm_num [TRUST_CONFIG]
    rw [if_pos hcond]
    simp
  · unfold checkDiversityQuota
    rw [henabled]
    have htot := getTodayDiversityStats_totalToday (TRUST_CONFIG true) rows5
    have hc1 : ¬(5 < (getTodayDiversityStats (TRUST_CONFIG true) rows5).totalToday ∧
        (TRUST_CONFIG true).maxSameClusterPercent ≤
          ((mapGet (getTodayDiversityStats (TRUST_CONFIG true) rows5).byCluster
              (getCanonicalTopicKey kw) : ℚ)) /
            (((getTodayDiversityStats (TRUST_CONFIG true) rows5).totalToday : ℚ))) := by
      rintro ⟨hlt, -⟩
      omega
    rw [if_neg hc1]
    have hc2 : ¬(((TRUST_CONFIG true).governmentKeywords.any fun gk =>
          hasSub (kw.map jsLower) gk) = true ∧
        5 < (getTodayDiversityStats (TRUST_CONFIG true) rows5).totalToday ∧
        (TRUST_CONFIG true).maxGovernmentPercent ≤
          (((getTodayDiversityStats (TRUST_CONFIG true) rows5).governmentCount : ℚ)) /
            (((getTodayDiversityStats (TRUST_CONFIG true) rows5).totalToday : ℚ))) := by
      rintro ⟨-, hlt, -⟩
      omega
    rw [if_neg hc2]
    simp

/-- Ten window rows, all with canonical key `passport:renew:india`. -/
def c7Rows10 : List PublishedRow :=
  List.replicate 10 ⟨str ("renew passport india"), str ("Travel")⟩

/-- Five window rows with the same canonical key. -/
def c7Rows5 : List PublishedRow :=
  List.replicate 5 ⟨str ("renew passport india"), str ("Travel")⟩

/-- C7 witness: the candidate `passport renewal india` (same canonical
cluster as the window rows) is rejected against the 10-item window and
admitted against the 5-item window. -/
theorem c7_diversity_quota_ramp_witness :
    (checkDiversityQuota (TRUST_CONFIG true) c7Rows10
      (str ("passport renewal india")) (str ("Travel"))).allowed = false ∧
    (checkDiversityQuota (TRUST_CONFIG true) c7Rows5
      (str ("passport renewal india")) (str ("Travel"))).allowed = true :=
  c7_diversity_quota_ramp (str ("passport renewal india")) (str ("Travel"))
    c7Rows10 c7Rows5 (by decide) (by decide) (by decide)

/-- `classifyQuery` only ever returns the statuses `rejected`, `pending`
or `review_required`. -/
theorem classifyQuery_status_cases (cfg : SafetyConfig) (q : List Nat) :
    (classifyQuery cfg q).status = .rejected ∨
    (classifyQuery cfg q).status = .pending ∨
    (classifyQuery cfg q).status = .review_required := by
  unfold classifyQuery
  cases h : BLOCKED_TOPICS.find? (fun b => hasSub (q.map jsLower) b) with
  | some b => simp [h]
  | none =>
      simp only [h]
      split_ifs <;> simp

/-- One discovery step preserves "every inserted row is `pending` or
`review_required`": rejected suggestions and duplicates insert nothing,
and an inserted row's status is a non-rejected classifier status. -/
theorem discoverStep_status (cfg : SafetyConfig) (kid : Nat)
    (st : List (List Nat) × List ScoredQuery) (sug : List Nat)
    (hst : ∀ r ∈ st.2, r.status = .pending ∨ r.status = .review_required) :
    ∀ r ∈ (discoverStep cfg kid st sug).2,
      r.status = .pending ∨ r.status = .review_required := by
  intro r hr
  simp only [discoverStep] at hr
  split_ifs at hr with h1 h2
  · exact hst r hr
  · exact hst r hr
  · rcases List.mem_append.mp hr with h | h
    · exact hst r h
    · have heq : r = scoreQuery cfg sug (some kid) := by simpa using h
      subst heq
      have hs : (scoreQuery cfg sug (some kid)).status =
          (classifyQuery cfg sug).status := rfl
      rcases classifyQuery_status_cases cfg sug with h' | h' | h'
      · exact absurd (hs.trans h') h1
      · exact Or.inl (hs.trans h')
      · exact Or.inr (hs.trans h')

/-- The suggestion loop of one keyword preserves the same invariant. -/
theorem discoverKeyword_status (cfg : SafetyConfig) (kid : Nat) :
    ∀ (sugs : List (List Nat)) (st : List (List Nat) × List ScoredQuery),
      (∀ r ∈ st.2, r.status = .pending ∨ r.status = .review_required) →
      ∀ r ∈ (discoverKeyword cfg kid sugs st).2,
        r.status = .pending ∨ r.status = .review_required := by
  intro sugs
  induction sugs with
  | nil => intro st hst; simpa [discoverKeyword] using hst
  | cons s rest ih =>
      intro st hst
      rw [discoverKeyword, List.foldl_cons]
      exact ih (discoverStep cfg kid st s) (discoverStep_status cfg kid st s hst)

/-- C9: every `queries` row inserted by the discovery phase has status
`pending` or `review_required` — suggestions classified `rejected` are
dropped before the duplicate lookup and the insert, and the classifier
produces no other status. -/
theorem c9_discovery_inserts_pending_or_review (cfg : SafetyConfig)
    (keywords : List (Nat × List (List Nat))) (db0 : List (List Nat)) :
    ∀ row ∈ (runDiscoveryModel cfg keywords db0).inserted,
      row.status = .pending ∨ row.status = .review_required := by
  suffices h : ∀ (ks : List (Nat × List (List Nat)))
      (st : List (List Nat) × List ScoredQuery),
      (∀ r ∈ st.2, r.status = .pending ∨ r.status = .review_required) →
      ∀ r ∈ (ks.foldl (fun st kw => discoverKeyword cfg kw.1 kw.2 st) st).2,
        r.status = .pending ∨ r.status = .review_required by
    intro row hrow
    exact h keywords (db0, []) (by simp) row hrow
  intro ks
  induction ks with
  | nil => intro st hst; simpa using hst
  | cons k rest ih =>
      intro st hst
      rw [List.foldl_cons]
      exact ih (discoverKeyword cfg k.1 k.2 st)
        (discoverKeyword_status cfg k.1 k.2 st hst)

/-- The row inserted by the concrete discovery run below. -/
def c9Row : ScoredQuery :=
  scoreQuery defaultSafetyConfig (str ("how to renew passport")) (some 1)

/-- C9 witness: a discovery run over one keyword and the suggestion
`how to renew passport` (classified `pending`) inserts exactly that row,
and its status is `pending` or `review_required`. -/
theorem c9_discovery_inserts_pending_or_review_witness :
    c9Row ∈ (runDiscoveryModel defaultSafetyConfig
      [(1, [str ("how to renew passport")])] []).inserted ∧
    (c9Row.status = .pending ∨ c9Row.status = .review_required) :=
  have hmem : c9Row ∈ (runDiscoveryModel defaultSafetyConfig
      [(1, [str ("how to renew passport")])] []).inserted := by
    have h : (runDiscoveryModel defaultSafetyConfig
        [(1, [str ("how to renew passport")])] []).inserted = [c9Row] := rfl
    rw [h]
    exact List.mem_singleton_self c9Row
  ⟨hmem, c9_discovery_inserts_pending_or_review defaultSafetyConfig
    [(1, [str ("how to renew passport")])] [] c9Row hmem⟩

/-- C4 (amended): `calculateCombinedScore` is weakly decreasing in
`ymylRiskScore` — the two-decimal rounding (`Math.round(score·100)/100`)
can map nearby risks to the same rounded score, so the decrease need not
be strict. -/
theorem c4_combined_score_antitone (i e r1 r2 : ℚ)
    (_hi0 : 0 ≤ i) (_hi1 : i ≤ 1) (_he0 : 0 ≤ e) (_he1 : e ≤ 1)
    (_hr0 : 0 ≤ r1) (_hr1 : r2 ≤ 1) (h : r1 < r2) :
    calculateCombinedScore i e r2 ≤ calculateCombinedScore i e r1 := by
  unfold calculateCombinedScore jsRound
  have hs : (i * (4/10) + e * (4/10) + (1 - r2) * (2/10)) * 100 + 1/2 ≤
      (i * (4/10) + e * (4/10) + (1 - r1) * (2/10)) * 100 + 1/2 := by
    nlinarith [h.le]
  have hfloor := Int.floor_le_floor hs
  have hcast : ((⌊(i * (4/10) + e * (4/10) + (1 - r2) * (2/10)) * 100 + 1/2⌋ : ℤ) : ℚ) ≤
      ((⌊(i * (4/10) + e * (4/10) + (1 - r1) * (2/10)) * 100 + 1/2⌋ : ℤ) : ℚ) := by
    exact_mod_cast hfloor
  exact (div_le_div_iff_of_pos_right (by norm_num : (0:ℚ) < 100)).mpr hcast

/-- C4 counterexample: at `intent = evergreen = 0`, risks `0` and
`1/100` both round to a combined score of `0.2`, so strict decrease
fails: `calculateCombinedScore 0 0 0` is not greater than
`calculateCombinedScore 0 0 (1/100)` although `0 < 1/100`. -/
theorem c4_strict_decrease_fails :
    (0:ℚ) ≤ 0 ∧ (0:ℚ) ≤ 1 ∧ (0:ℚ) < 1/100 ∧ (1:ℚ)/100 ≤ 1 ∧
    calculateCombinedScore 0 0 0 = 1/5 ∧
    calculateCombinedScore 0 0 (1/100) = 1/5 ∧
    ¬(calculateCombinedScore 0 0 0 > calculateCombinedScore 0 0 (1/100)) := by
  have h1 : calculateCombinedScore 0 0 0 = 1/5 := by
    norm_num [calculateCombinedScore, jsRound]
  have h2 : calculateCombinedScore 0 0 (1/100) = 1/5 := by
    norm_num [calculateCombinedScore, jsRound]
  refine ⟨le_refl 0, by norm_num, by norm_num, by norm_num, h1, h2, ?_⟩
  rw [h1, h2]
  exact lt_irrefl _

/-- C4 witness: the amended monotonicity at `i = e = 0`, risks `0 ≤ 1`. -/
theorem c4_combined_score_antitone_witness :
    calculateCombinedScore 0 0 1 ≤ calculateCombinedScore 0 0 0 :=
  c4_combined_score_antitone 0 0 0 1 (le_refl 0) zero_le_one (le_refl 0)
    zero_le_one (le_refl 0) (le_refl 1) zero_lt_one

/-- The six structural pushes contribute at most six issues. -/
theorem qgStructIssues_length_le (cfg : QualityConfig) (article : GeneratedArticle) :
    (qgStructIssues cfg article).length ≤ 6 := by
  unfold qgStructIssues
  simp only [List.length_append]
  split_ifs <;> simp

/-- C6: `runQualityGate` passes iff the issue list is empty, its score
is `(7 − issueCount + bannedPhraseCount) / 7` (the `Math.max(0, ·)`
never clips because at most six structural issues exist), and an article
passing all structural checks but containing a banned phrase gets score
`1` with `passed = false`. -/
theorem c6_quality_gate_score_and_passed (cfg : QualityConfig)
    (article : GeneratedArticle) :
    ((runQualityGate cfg article).passed = true ↔
      (runQualityGate cfg article).issues = []) ∧
    (runQualityGate cfg article).score =
      ((7:ℚ) - ((runQualityGate cfg article).issues.length : ℚ) +
        ((runQualityGate cfg article).details.bannedPhrasesFound.length : ℚ)) / 7 ∧
    ((runQualityGate cfg article).details.hasH1 = true →
      cfg.minHeadings ≤ (runQualityGate cfg article).details.h2Count →
      (runQualityGate cfg article).details.hasFaq = true →
      (runQualityGate cfg article).details.hasSources = true →
      (runQualityGate cfg article).details.hasDisclaimer = true →
      cfg.minWordCount ≤ (runQualityGate cfg article).details.wordCount →
      (runQualityGate cfg article).details.bannedPhrasesFound ≠ [] →
      (runQualityGate cfg article).score = 1 ∧
        (runQualityGate cfg article).passed = false) := by
  have hiss : (runQualityGate cfg article).issues =
      qgStructIssues cfg article ++
        (qgBannedFound article).map QualityIssue.bannedPhrase := rfl
  have hdet : (runQualityGate cfg article).details.bannedPhrasesFound =
      qgBannedFound article := rfl
  have hpass : (runQualityGate cfg article).passed =
      ((qgStructIssues cfg article ++
        (qgBannedFound article).map QualityIssue.bannedPhrase).length == 0) := rfl
  have hscore : (runQualityGate cfg article).score =
      jsMax 0 (((7:ℚ) -
        (((qgStructIssues cfg article ++
          (qgBannedFound article).map QualityIssue.bannedPhrase).length : Nat) : ℚ) +
        (((qgBannedFound article).length : Nat) : ℚ)) / 7) := rfl
  have hlen : (qgStructIssues cfg article ++
      (qgBannedFound article).map QualityIssue.bannedPhrase).length =
      (qgStructIssues cfg article).length + (qgBannedFound article).length := by
    simp
  have hS6 := qgStructIssues_length_le cfg article
  have hnonneg : (0:ℚ) ≤ ((7:ℚ) -
      (((qgStructIssues cfg article ++
        (qgBannedFound article).map QualityIssue.bannedPhrase).length : Nat) : ℚ) +
      (((qgBannedFound article).length : Nat) : ℚ)) / 7 := by
    rw [hlen]
    push_cast
    have : ((qgStructIssues cfg article).length : ℚ) ≤ 6 := by exact_mod_cast hS6
    have h7 : (0:ℚ) < 7 := by norm_num
    apply div_nonneg _ (le_of_lt h7)
    linarith
  have hscore' : (runQualityGate cfg article).score =
      ((7:ℚ) -
        (((qgStructIssues cfg article ++
          (qgBannedFound article).map QualityIssue.bannedPhrase).length : Nat) : ℚ) +
        (((qgBannedFound article).length : Nat) : ℚ)) / 7 := by
    rw [hscore]
    unfold jsMax
    rw [if_pos hnonneg]
  refine ⟨?_, ?_, ?_⟩
  · rw [hpass, hiss]
    simp [List.length_eq_zero]
  · rw [hscore', hiss, hdet]
  · intro h1 h2 h3 h4 h5 h6 h7
    have e1 : (runQualityGate cfg article).details.hasH1 =
        hasTagMatch (str ("<h1")) article.content := rfl
    have e2 : (runQualityGate cfg article).details.h2Count =
        countTag (str ("<h2")) (article.content.map jsLower) := rfl
    have e3 : (runQualityGate cfg article).details.hasFaq =
        (hasSub (article.content.map jsLower) (str ("faq")) ||
          hasSub (article.content.map jsLower)
            (str ("frequently asked questions"))) := rfl
    have e4 : (runQualityGate cfg article).details.hasSources =
        (hasSub (article.content.map jsLower) (str ("sources")) ||
          hasSub (article.content.map jsLower) (str ("references"))) := rfl
    have e5 : (runQualityGate cfg article).details.hasDisclaimer =
        hasSub (article.content.map jsLower) (str ("disclaimer")) := rfl
    have e6 : (runQualityGate cfg article).details.wordCount =
        article.wordCount := rfl
    rw [e1] at h1
    rw [e2] at h2
    rw [e3] at h3
    rw [e4] at h4
    rw [e5] at h5
    rw [e6] at h6
    rw [hdet] at h7
    have hSnil : qgStructIssues cfg article = [] := by
      simp only [qgStructIssues]
      rw [if_pos h1, if_neg (Nat.not_lt.mpr h2), if_pos h3, if_pos h4,
        if_pos h5, if_neg (Nat.not_lt.mpr h6)]
      simp
    constructor
    · rw [hscore', hlen, hSnil]
      simp
    · rw [hpass, hSnil]
      simpa [List.length_eq_zero] using h7

/-- The quality thresholds at their defaults (`MIN_HEADINGS = 3`,
`MIN_WORD_COUNT = 500`). -/
def c6Config : QualityConfig := ⟨3, 500⟩

/-- An article passing every structural check but containing the banned
phrase `trust me`. -/
def c6Article : GeneratedArticle :=
  { title := str ("Test Article")
    content := str
      ("<h1>T</h1><h2>A</h2><h2>B</h2><h2>C</h2> faq sources disclaimer trust me")
    wordCount := 600 }

/-- C6 witness: the banned-phrase article scores `1` yet fails the
gate. -/
theorem c6_quality_gate_score_and_passed_witness :
    (runQualityGate c6Config c6Article).score = 1 ∧
    (runQualityGate c6Config c6Article).passed = false :=
  (c6_quality_gate_score_and_passed c6Config c6Article).2.2
    (by decide) (by decide) (by decide) (by decide) (by decide) (by decide)
    (by decide)

/-! Helper lemmas for the idempotence of `normalizeQuery` (C10).
`normalizeQuery` output consists of lower-stable word characters and
single spaces (code 32), with no leading, trailing or doubled space;
each pipeline stage is the identity on such strings. -/

theorem jsLower_not_upper (n : Nat) : ¬(65 ≤ jsLower n ∧ jsLower n ≤ 90) := by
  unfold jsLower
  split_ifs with h <;> omega

theorem jsLower_fixed_of_not_upper {n : Nat} (h : ¬(65 ≤ n ∧ n ≤ 90)) :
    jsLower n = n := if_neg h

theorem head?_dropWhile_not (p : Nat → Bool) :
    ∀ (l : List Nat) (x : Nat), (l.dropWhile p).head? = some x → p x = false := by
  intro l
  induction l with
  | nil => intro x h; simp at h
  | cons a t ih =>
      intro x h
      by_cases hpa : p a = true
      · rw [List.dropWhile_cons_of_pos hpa] at h
        exact ih x h
      · rw [List.dropWhile_cons_of_neg hpa] at h
        simp at h
        rw [← h]
        simpa using hpa

theorem dropWhile_id_of_head {p : Nat → Bool} {l : List Nat}
    (h : ∀ x, l.head? = some x → p x = false) : l.dropWhile p = l := by
  cases l with
  | nil => rfl
  | cons a t => exact List.dropWhile_cons_of_neg (by simp [h a rfl])

theorem jsTrim_id {l : List Nat}
    (hh : ∀ x, l.head? = some x → isSpaceCode x = false)
    (hl : ∀ x, l.getLast? = some x → isSpaceCode x = false) : jsTrim l = l := by
  unfold jsTrim
  rw [dropWhile_id_of_head hh]
  rw [dropWhile_id_of_head (p := (isSpaceCode ·)) (l := l.reverse)
    (fun x hx => hl x (by rwa [List.head?_reverse] at hx))]
  exact List.reverse_reverse l

theorem map_jsLower_id {l : List Nat} (h : ∀ n ∈ l, jsLower n = n) :
    l.map jsLower = l := by
  induction l with
  | nil => rfl
  | cons a t ih =>
      simp only [List.map_cons, List.cons.injEq]
      exact ⟨h a (by simp), ih fun n hn => h n (by simp [hn])⟩

theorem punctToSpace_id {l : List Nat}
    (h : ∀ n ∈ l, (isWordCode n || isSpaceCode n) = true) : punctToSpace l = l := by
  induction l with
  | nil => rfl
  | cons a t ih =>
      have ha := h a (by simp)
      have hcond : (!(isWordCode a) && !(isSpaceCode a)) = false := by
        cases hw : isWordCode a <;> cases hs : isSpaceCode a <;> simp_all
      have hstep : punctToSpace (a :: t) =
          (if (!(isWordCode a) && !(isSpaceCode a)) = true then 32 else a) ::
            punctToSpace t := rfl
      rw [hstep, hcond]
      simp only [Bool.false_eq_true, if_false]
      rw [ih fun n hn => h n (by simp [hn])]

/-- No two adjacent space characters. -/
def noTwoSpaces (l : List Nat) : Prop :=
  l.Chain' fun a b => isSpaceCode a = false ∨ isSpaceCode b = false

theorem collapseWs_cons_of_not_space {d : Nat} {cs : List Nat}
    (h : isSpaceCode d = false) : collapseWs (d :: cs) = d :: collapseWs cs := by
  cases cs with
  | nil => simp [collapseWs, h]
  | cons e cs' => simp [collapseWs, h]

theorem noTwoSpaces_collapseWs (l : List Nat) : noTwoSpaces (collapseWs l) := by
  induction l using collapseWs.induct with
  | case1 => simp [collapseWs, noTwoSpaces]
  | case2 c hc => simp [collapseWs, hc, noTwoSpaces]
  | case3 c hc => simp [collapseWs, hc, noTwoSpaces]
  | case4 c d cs hc hd ih =>
      simpa [collapseWs, hc, hd] using ih
  | case5 c d cs hc hd ih =>
      have hd' : isSpaceCode d = false := by simpa using hd
      simp only [collapseWs, hc, if_pos, hd', Bool.false_eq_true, if_false]
      rw [collapseWs_cons_of_not_space hd'] at ih ⊢
      exact (List.chain'_cons' ).mpr ⟨fun b hb => by
        simp only [List.head?_cons, Option.mem_def, Option.some.injEq] at hb
        exact Or.inr (hb ▸ hd'), ih⟩
  | case6 c d cs hc ih =>
      have hc' : isSpaceCode c = false := by simpa using hc
      rw [collapseWs_cons_of_not_space hc']
      exact (List.chain'_cons').mpr ⟨fun b _ => Or.inl hc', ih⟩

theorem noTwoSpaces_dropWhile {l : List Nat} (h : noTwoSpaces l) :
    noTwoSpaces (l.dropWhile (isSpaceCode ·)) := by
  induction l with
  | nil => simpa using h
  | cons a t ih =>
      by_cases hpa : isSpaceCode a = true
      · rw [List.dropWhile_cons_of_pos (by simpa using hpa)]
        exact ih h.tail
      · rwa [List.dropWhile_cons_of_neg (by simpa using hpa)]

theorem noTwoSpaces_reverse {l : List Nat} (h : noTwoSpaces l) :
    noTwoSpaces l.reverse := by
  unfold noTwoSpaces at *
  rw [List.chain'_reverse]
  exact h.imp fun a b hab => hab.symm

theorem noTwoSpaces_jsTrim {l : List Nat} (h : noTwoSpaces l) :
    noTwoSpaces (jsTrim l) := by
  unfold jsTrim
  exact noTwoSpaces_reverse (noTwoSpaces_dropWhile (noTwoSpaces_reverse
    (noTwoSpaces_dropWhile h)))

theorem collapseWs_id {l : List Nat}
    (hsp : ∀ n ∈ l, isSpaceCode n = true → n = 32) (hch : noTwoSpaces l) :
    collapseWs l = l := by
  induction l using collapseWs.induct with
  | case1 => rfl
  | case2 c hc =>
      have := hsp c (by simp) hc
      simp [collapseWs, hc, this]
  | case3 c hc => simp [collapseWs, hc]
  | case4 c d cs hc hd ih =>
      exfalso
      rcases (List.chain'_cons.mp hch).1 with h | h
      · exact absurd hc (by simp [h])
      · exact absurd hd (by simp [h])
  | case5 c d cs hc hd ih =>
      have hd' : isSpaceCode d = false := by simpa using hd
      have hc32 := hsp c (by simp) hc
      simp only [collapseWs, hc, if_pos, hd', Bool.false_eq_true, if_false]
      rw [ih (fun n hn hs => hsp n (by simp [hn]) hs) (List.chain'_cons.mp hch).2,
        hc32]
  | case6 c d cs hc ih =>
      have hc' : isSpaceCode c = false := by simpa using hc
      rw [collapseWs_cons_of_not_space hc',
        ih (fun n hn hs => hsp n (by simp [hn]) hs) (List.chain'_cons.mp hch).2]

theorem mem_jsTrim {n : Nat} {l : List Nat} (h : n ∈ jsTrim l) : n ∈ l := by
  unfold jsTrim at h
  rw [List.mem_reverse] at h
  have h1 := (List.dropWhile_suffix (isSpaceCode ·)).sublist.mem h
  rw [List.mem_reverse] at h1
  exact (List.dropWhile_suffix (isSpaceCode ·)).sublist.mem h1

theorem mem_collapseWs {n : Nat} :
    ∀ {l : List Nat}, n ∈ collapseWs l →
      n = 32 ∨ (n ∈ l ∧ isSpaceCode n = false) := by
  intro l
  induction l using collapseWs.induct with
  | case1 => intro h; simp [collapseWs] at h
  | case2 c hc =>
      intro h
      simp [collapseWs, hc] at h
      exact Or.inl h
  | case3 c hc =>
      intro h
      simp [collapseWs, hc] at h
      exact Or.inr ⟨by simp [h], by simpa [h] using hc⟩
  | case4 c d cs hc hd ih =>
      intro h
      simp only [collapseWs, hc, if_pos, hd] at h
      rcases ih (by simpa using h) with h' | ⟨hm, hs⟩
      · exact Or.inl h'
      · exact Or.inr ⟨by simp [hm], hs⟩
  | case5 c d cs hc hd ih =>
      intro h
      have hd' : isSpaceCode d = false := by simpa using hd
      simp only [collapseWs, hc, if_pos, hd', Bool.false_eq_true, if_false] at h
      rcases List.mem_cons.mp h with h' | h'
      · exact Or.inl h'
      · rcases ih h' with h'' | ⟨hm, hs⟩
        · exact Or.inl h''
        · exact Or.inr ⟨by simp [hm], hs⟩
  | case6 c d cs hc ih =>
      intro h
      have hc' : isSpaceCode c = false := by simpa using hc
      rw [collapseWs_cons_of_not_space hc'] at h
      rcases List.mem_cons.mp h with h' | h'
      · exact Or.inr ⟨by simp [h'], h' ▸ hc'⟩
      · rcases ih h' with h'' | ⟨hm, hs⟩
        · exact Or.inl h''
        · exact Or.inr ⟨by simp [hm], hs⟩

theorem mem_punctToSpace {n : Nat} {l : List Nat} (h : n ∈ punctToSpace l) :
    n = 32 ∨ (n ∈ l ∧ (isWordCode n || isSpaceCode n) = true) := by
  unfold punctToSpace at h
  obtain ⟨m, hm, he⟩ := List.mem_map.mp h
  by_cases hc : (!(isWordCode m) && !(isSpaceCode m)) = true
  · rw [hc] at he
    simp at he
    exact Or.inl he.symm
  · rw [Bool.not_eq_true] at hc
    rw [hc] at he
    simp only [Bool.false_eq_true, if_false] at he
    subst he
    refine Or.inr ⟨hm, ?_⟩
    cases hw : isWordCode m <;> cases hs : isSpaceCode m <;> simp_all

theorem trimRight_head {p : Nat → Bool} {l : List Nat} {x : Nat}
    (h : ((l.reverse.dropWhile p).reverse).head? = some x) : l.head? = some x := by
  obtain ⟨t, ht⟩ := List.dropWhile_suffix (l := l.reverse) p
  have hl : l = (l.reverse.dropWhile p).reverse ++ t.reverse := by
    have := congrArg List.reverse ht
    rw [List.reverse_append, List.reverse_reverse] at this
    exact this.symm
  cases e : (l.reverse.dropWhile p).reverse with
  | nil => rw [e] at h; simp at h
  | cons y r =>
      rw [e] at h
      simp at h
      rw [hl, e, h]
      simp

theorem normalizeQuery_head (s : List Nat) :
    ∀ x, (normalizeQuery s).head? = some x → isSpaceCode x = false := by
  intro x hx
  have hx' : ((((collapseWs (punctToSpace (jsTrim (s.map jsLower)))).dropWhile
      (isSpaceCode ·)).reverse.dropWhile (isSpaceCode ·)).reverse).head? = some x := hx
  exact head?_dropWhile_not _ _ x (trimRight_head hx')

theorem normalizeQuery_last (s : List Nat) :
    ∀ x, (normalizeQuery s).getLast? = some x → isSpaceCode x = false := by
  intro x hx
  have hx' : ((((collapseWs (punctToSpace (jsTrim (s.map jsLower)))).dropWhile
      (isSpaceCode ·)).reverse.dropWhile (isSpaceCode ·)).reverse).getLast? =
      some x := hx
  rw [List.getLast?_reverse] at hx'
  exact head?_dropWhile_not _ _ x hx'

theorem normalizeQuery_chars (s : List Nat) :
    ∀ n ∈ normalizeQuery s,
      n = 32 ∨ (isWordCode n = true ∧ isSpaceCode n = false ∧ jsLower n = n) := by
  intro n hn
  have hn' : n ∈ jsTrim (collapseWs (punctToSpace (jsTrim (s.map jsLower)))) := hn
  rcases mem_collapseWs (mem_jsTrim hn') with h32 | ⟨h2, hns⟩
  · exact Or.inl h32
  · rcases mem_punctToSpace h2 with h32' | ⟨h3, hws⟩
    · subst h32'
      exact absurd hns (by decide)
    · obtain ⟨m, _, he⟩ := List.mem_map.mp (mem_jsTrim h3)
      have hnu : ¬(65 ≤ n ∧ n ≤ 90) := he ▸ jsLower_not_upper m
      have hw : isWordCode n = true := by
        rcases Bool.or_eq_true_iff.mp hws with h | h
        · exact h
        · exact absurd h (by simp [hns])
      exact Or.inr ⟨hw, hns, jsLower_fixed_of_not_upper hnu⟩

theorem normalizeQuery_noTwoSpaces (s : List Nat) :
    noTwoSpaces (normalizeQuery s) :=
  noTwoSpaces_jsTrim
    (noTwoSpaces_collapseWs (punctToSpace (jsTrim (s.map jsLower))))

/-- C10: `normalizeQuery` is idempotent: its output is made of
lower-stable word characters separated by single spaces with no leading
or trailing space, and every stage of the pipeline is the identity on
such strings. -/
theorem c10_normalizeQuery_idempotent (s : List Nat) :
    normalizeQuery (normalizeQuery s) = normalizeQuery s := by
  have hchars := normalizeQuery_chars s
  have hh := normalizeQuery_head s
  have hl := normalizeQuery_last s
  have hch := normalizeQuery_noTwoSpaces s
  have h32 : ∀ n ∈ normalizeQuery s, isSpaceCode n = true → n = 32 := by
    intro n hn hs
    rcases hchars n hn with h | ⟨_, hns, _⟩
    · exact h
    · exact absurd hs (by simp [hns])
  have hfix : ∀ n ∈ normalizeQuery s, jsLower n = n := by
    intro n hn
    rcases hchars n hn with h | ⟨_, _, hf⟩
    · subst h; decide
    · exact hf
  have hws : ∀ n ∈ normalizeQuery s, (isWordCode n || isSpaceCode n) = true := by
    intro n hn
    rcases hchars n hn with h | ⟨hw, _, _⟩
    · subst h; decide
    · simp [hw]
  show jsTrim (collapseWs (punctToSpace (jsTrim
    ((normalizeQuery s).map jsLower)))) = normalizeQuery s
  rw [map_jsLower_id hfix, jsTrim_id hh hl, punctToSpace_id hws,
    collapseWs_id h32 hch, jsTrim_id hh hl]

end PressRelease
